import Mathlib

/-!
Shallow embedding of `gitignore-downloader` (`src/main.rs`).

The program fetches `.gitignore` templates over HTTP and merges them into a
local file.  File contents are modelled as `String` (a list of unicode
characters, matching Rust's UTF-8 `String`), the HTTP layer as explicit
response values, and fallible operations as `Except`.
-/

/-- Mirrors `struct Template { name: String, content: String }`. -/
structure Template where
  name : String
  content : String
deriving DecidableEq

/-- Mirrors `tpl.content.ends_with('\n')`: the last character is a newline. -/
def endsWithNewline (s : String) : Bool :=
  s.data.getLast? = some '\n'

/-- Mirrors `needs_separator` (`src/main.rs:248-251`): the open file's byte
length is positive, i.e. its current content is nonempty. -/
def needs_separator (file : String) : Bool :=
  file ≠ ""

/-- The block emitted for one template by `write_templates`: the header line
`# --- <name> ---`, the content, a guaranteed trailing newline, and one blank
line.  This text is identical in the dry-run, overwrite and append branches
(`src/main.rs:197-204`, `210-217`, `236-241`). -/
def renderBlock (tpl : Template) : String :=
  "# --- " ++ tpl.name ++ " ---\n" ++ tpl.content
    ++ (if endsWithNewline tpl.content then "" else "\n") ++ "\n"

/-- One iteration of the append-mode loop (`src/main.rs:228-244`): `existing`
is the snapshot read before the loop, `file` the current file content.  If the
snapshot is nonempty and contains the template's content as a substring
(`existing_content.contains(&tpl.content)`), the template is skipped;
otherwise a blank-line separator (when the file is currently nonempty), the
header, the content with guaranteed trailing newline, and a blank line are
appended. -/
def appendStep (existing : String) (file : String) (tpl : Template) : String :=
  if existing ≠ "" ∧ tpl.content.data <:+: existing.data then
    file
  else
    file ++ (if needs_separator file then "\n" else "") ++ renderBlock tpl

/-- The whole append-mode branch of `write_templates`: the file initially
holds `existing` (missing file read as `""`), and the snapshot used for
duplicate detection is that same `existing`, never updated. -/
def appendRun (existing : String) (templates : List Template) : String :=
  templates.foldl (appendStep existing) existing

/-- Mirrors `write_templates` (`src/main.rs:190-246`) as a transformer of the
destination file's content.  Dry-run performs no file I/O; overwrite replaces
the whole file with a freshly built buffer; otherwise the append branch runs. -/
def write_templates (existing : String) (overwrite : Bool) (dry_run : Bool)
    (templates : List Template) : String :=
  if dry_run then existing
  else if overwrite then
    templates.foldl (fun buf tpl => buf ++ renderBlock tpl) ""
  else appendRun existing templates

/-! Helper lemmas about strings and the append-mode loop. -/

theorem str_ne_empty_iff (s : String) : s ≠ "" ↔ s.data ≠ [] := by
  constructor
  · intro h hd
    exact h (String.ext hd)
  · intro h hs
    exact h (by rw [hs])

theorem sub_append_right {α : Type} {l a : List α} (h : l <:+: a) (b : List α) :
    l <:+: a ++ b := by
  obtain ⟨s, t, rfl⟩ := h
  exact ⟨s, t ++ b, by simp [List.append_assoc]⟩

theorem sub_append_left {α : Type} {l b : List α} (h : l <:+: b) (a : List α) :
    l <:+: a ++ b := by
  obtain ⟨s, t, rfl⟩ := h
  exact ⟨a ++ s, t, by simp [List.append_assoc]⟩

theorem renderBlock_data (tpl : Template) : (renderBlock tpl).data =
    "# --- ".data ++ tpl.name.data ++ " ---\n".data ++ tpl.content.data
      ++ (if endsWithNewline tpl.content then "" else "\n").data ++ "\n".data := by
  simp [renderBlock, String.data_append]

theorem renderBlock_ne_empty (tpl : Template) : renderBlock tpl ≠ "" := by
  intro h
  have hd : (renderBlock tpl).data = ([] : List Char) := by rw [h]
  simp [renderBlock_data] at hd

theorem content_sub_renderBlock (tpl : Template) :
    tpl.content.data <:+: (renderBlock tpl).data := by
  rw [renderBlock_data]
  exact ⟨"# --- ".data ++ tpl.name.data ++ " ---\n".data,
    (if endsWithNewline tpl.content then "" else "\n").data ++ "\n".data,
    by simp [List.append_assoc]⟩

theorem append_ne_empty_right (a b : String) (h : b ≠ "") : a ++ b ≠ "" := by
  rw [str_ne_empty_iff, String.data_append]
  intro hnil
  exact (str_ne_empty_iff b).mp h (List.append_eq_nil.mp hnil).2

theorem appendStep_skip {ex : String} {tpl : Template} (file : String)
    (h : ex ≠ "" ∧ tpl.content.data <:+: ex.data) :
    appendStep ex file tpl = file := if_pos h

theorem appendStep_write {ex : String} {tpl : Template} (file : String)
    (h : ¬(ex ≠ "" ∧ tpl.content.data <:+: ex.data)) :
    appendStep ex file tpl
      = file ++ (if needs_separator file then "\n" else "") ++ renderBlock tpl :=
  if_neg h

theorem needs_separator_true {file : String} (h : file ≠ "") :
    needs_separator file = true := decide_eq_true h

theorem sep_of_ne {file : String} (h : file ≠ "") :
    (if needs_separator file then "\n" else "") = "\n" := by
  rw [needs_separator_true h]
  rfl

theorem appendRun_eq_foldl (ex : String) (ts : List Template) :
    appendRun ex ts = List.foldl (appendStep ex) ex ts := rfl

theorem renderBlock_def (tpl : Template) : renderBlock tpl =
    "# --- " ++ tpl.name ++ " ---\n" ++ tpl.content
      ++ (if endsWithNewline tpl.content then "" else "\n") ++ "\n" := rfl

theorem foldl_appendStep_extends (ex : String) (ts : List Template) :
    ∀ file : String, ∃ r : String, ts.foldl (appendStep ex) file = file ++ r := by
  induction ts with
  | nil => intro file; exact ⟨"", (String.append_empty file).symm⟩
  | cons t ts ih =>
    intro file
    rw [List.foldl_cons]
    by_cases h : ex ≠ "" ∧ t.content.data <:+: ex.data
    · rw [appendStep_skip file h]; exact ih file
    · rw [appendStep_write file h]
      obtain ⟨r, hr⟩ :=
        ih (file ++ (if needs_separator file then "\n" else "") ++ renderBlock t)
      exact ⟨(if needs_separator file then "\n" else "") ++ renderBlock t ++ r,
        by rw [hr]; simp [String.append_assoc]⟩

theorem foldl_appendStep_ne_empty (ex : String) (ts : List Template) (file : String)
    (h : file ≠ "") : ts.foldl (appendStep ex) file ≠ "" := by
  obtain ⟨r, hr⟩ := foldl_appendStep_extends ex ts file
  rw [hr, str_ne_empty_iff, String.data_append]
  intro hnil
  exact (str_ne_empty_iff file).mp h (List.append_eq_nil.mp hnil).1

theorem foldl_appendStep_covers (ex : String) (ts : List Template) :
    ∀ (file : String) (tpl : Template), tpl ∈ ts →
      (ex ≠ "" ∧ tpl.content.data <:+: ex.data)
        ∨ tpl.content.data <:+: (ts.foldl (appendStep ex) file).data := by
  induction ts with
  | nil => intro file tpl h; cases h
  | cons t ts ih =>
    intro file tpl h
    rw [List.foldl_cons]
    rcases List.mem_cons.mp h with rfl | hmem
    · by_cases hc : ex ≠ "" ∧ tpl.content.data <:+: ex.data
      · exact Or.inl hc
      · right
        rw [appendStep_write file hc]
        obtain ⟨r, hr⟩ := foldl_appendStep_extends ex ts
          (file ++ (if needs_separator file then "\n" else "") ++ renderBlock tpl)
        rw [hr, String.data_append]
        apply sub_append_right
        rw [String.data_append]
        exact sub_append_left (content_sub_renderBlock tpl) _
    · exact ih (appendStep ex file t) tpl hmem

theorem foldl_appendStep_noop (ex : String) :
    ∀ (ts : List Template) (file : String),
      (∀ t ∈ ts, ex ≠ "" ∧ t.content.data <:+: ex.data) →
      ts.foldl (appendStep ex) file = file := by
  intro ts
  induction ts with
  | nil => intro file _; rfl
  | cons t ts ih =>
    intro file h
    rw [List.foldl_cons, appendStep_skip file (h t (List.mem_cons_self t ts))]
    exact ih file (fun t' ht' => h t' (List.mem_cons_of_mem _ ht'))

theorem appendRun_empty_start_ne (ts : List Template) (h : ts ≠ []) :
    appendRun "" ts ≠ "" := by
  cases ts with
  | nil => exact absurd rfl h
  | cons t ts =>
    rw [appendRun_eq_foldl, List.foldl_cons]
    apply foldl_appendStep_ne_empty
    rw [appendStep_write "" (fun hc => hc.1 rfl)]
    show renderBlock t ≠ ""
    exact renderBlock_ne_empty t

/-- C1: In append mode (not overwrite, not dry-run), starting from a file
containing `"Existing\ntarget/\n"` and templates Rust (`"target/\n"`) and
Node (`"node_modules/\n"`), the file ends up containing exactly
`"Existing\ntarget/\n\n# --- Node ---\nnode_modules/\n\n"`: Rust is skipped
because its content is a substring of the pre-existing content, Node is
appended with a leading blank-line separator, its header, its content, and a
trailing blank line. -/
theorem write_templates_append_skip_concrete :
    write_templates "Existing\ntarget/\n" false false
      [⟨"Rust", "target/\n"⟩, ⟨"Node", "node_modules/\n"⟩]
      = "Existing\ntarget/\n\n# --- Node ---\nnode_modules/\n\n" := by
  decide

/-- C3: In overwrite mode, for templates Rust (`"target/\n"`) and Node
(`"node_modules/\n"`), the destination file's entire prior contents, whatever
they were, are replaced by exactly
`"# --- Rust ---\ntarget/\n\n# --- Node ---\nnode_modules/\n\n"`. -/
theorem write_templates_overwrite_exact (prior : String) :
    write_templates prior true false
      [⟨"Rust", "target/\n"⟩, ⟨"Node", "node_modules/\n"⟩]
      = "# --- Rust ---\ntarget/\n\n# --- Node ---\nnode_modules/\n\n" := by
  rfl

/-- C4: Append-mode idempotence: running the append branch twice in a row with
the same template sequence and no other modification of the file in between
changes nothing the second time — every template appended by the first run is
found by the second run's initial-snapshot substring check and skipped, so
each block is physically appended at most once in total. -/
theorem write_templates_append_idempotent (existing : String) (ts : List Template) :
    write_templates (write_templates existing false false ts) false false ts
      = write_templates existing false false ts := by
  show List.foldl (appendStep (appendRun existing ts)) (appendRun existing ts) ts
        = appendRun existing ts
  apply foldl_appendStep_noop
  intro t ht
  obtain ⟨r, hr⟩ := foldl_appendStep_extends existing ts existing
  have hr' : appendRun existing ts = existing ++ r := hr
  rcases foldl_appendStep_covers existing ts existing t ht with ⟨hne, hsub⟩ | hsub
  · refine ⟨foldl_appendStep_ne_empty existing ts existing hne, ?_⟩
    rw [hr', String.data_append]
    exact sub_append_right hsub _
  · have hsub' : t.content.data <:+: (appendRun existing ts).data := hsub
    refine ⟨?_, hsub'⟩
    by_cases hex : existing = ""
    · subst hex
      apply appendRun_empty_start_ne
      intro hnil
      rw [hnil] at ht
      cases ht
    · exact foldl_appendStep_ne_empty existing ts existing hex

/-- C5: Within one append-mode run the duplicate-detection snapshot is taken
once and never updated: if two requested templates have identical content and
that content is not a substring of the pre-existing snapshot, both templates
are written to the file in that run — the second does not detect the first's
freshly appended copy. -/
theorem append_same_content_both_written (existing : String) (t1 t2 : Template)
    (hc : t1.content = t2.content)
    (h : ¬ t1.content.data <:+: existing.data) :
    write_templates existing false false [t1, t2] =
      existing ++ (if needs_separator existing then "\n" else "")
        ++ renderBlock t1 ++ "\n" ++ renderBlock t2 := by
  show List.foldl (appendStep existing) existing [t1, t2] = _
  rw [List.foldl_cons, List.foldl_cons, List.foldl_nil]
  rw [appendStep_write existing (fun hcond => h hcond.2)]
  rw [appendStep_write _ (fun hcond => h (by rw [hc]; exact hcond.2))]
  rw [sep_of_ne (append_ne_empty_right _ _ (renderBlock_ne_empty t1))]

/-- C5 witness: concrete instance with empty pre-existing file and two
templates of identical content; both blocks are appended. -/
theorem append_same_content_both_written_witness :
    write_templates "" false false [⟨"A", "x\n"⟩, ⟨"B", "x\n"⟩] =
      "" ++ (if needs_separator "" then "\n" else "")
        ++ renderBlock ⟨"A", "x\n"⟩ ++ "\n" ++ renderBlock ⟨"B", "x\n"⟩ :=
  append_same_content_both_written "" ⟨"A", "x\n"⟩ ⟨"B", "x\n"⟩ rfl (by decide)

/-- C10: In append mode, a template whose content is the empty string is
skipped (reported as already present) whenever the pre-existing snapshot is
nonempty, because the substring check with an empty needle always succeeds;
and it is appended — header line, guaranteed trailing newline, blank line —
when the pre-existing content is empty. -/
theorem append_empty_content_spec (tpl : Template) :
    (tpl.content = "" → ∀ existing file : String, existing ≠ "" →
        appendStep existing file tpl = file)
    ∧ (tpl.content = "" →
        write_templates "" false false [tpl]
          = "# --- " ++ tpl.name ++ " ---\n" ++ "\n" ++ "\n") := by
  constructor
  · intro hc existing file hex
    have hsub : tpl.content.data <:+: existing.data := by
      rw [hc]
      exact ⟨[], existing.data, by simp⟩
    exact appendStep_skip file ⟨hex, hsub⟩
  · intro hc
    show List.foldl (appendStep "") "" [tpl] = _
    rw [List.foldl_cons, List.foldl_nil]
    rw [appendStep_write "" (fun hcond => hcond.1 rfl)]
    show renderBlock tpl = _
    rw [renderBlock_def, hc]
    rw [show endsWithNewline "" = false from rfl]
    rw [String.append_empty]
    rfl

/-- C10 witness: a concrete empty-content template is skipped against a
nonempty snapshot and appended with header and two newlines to an empty
file. -/
theorem append_empty_content_spec_witness :
    appendStep "x" "x" ⟨"Empty", ""⟩ = "x" ∧
      write_templates "" false false [⟨"Empty", ""⟩]
        = "# --- " ++ "Empty" ++ " ---\n" ++ "\n" ++ "\n" :=
  ⟨(append_empty_content_spec ⟨"Empty", ""⟩).1 rfl "x" "x" (by decide),
   (append_empty_content_spec ⟨"Empty", ""⟩).2 rfl⟩

/-!
Cache store (`CachedTypes`, `is_fresh`, `read_cached_types`, `load_types`,
`src/main.rs:51-62`, `101-110`, `272-284`).  Time is modelled in whole unix
seconds.  `is_fresh` mirrors
`(UNIX_EPOCH + fetched_at).elapsed().map(|age| age <= ttl).unwrap_or(false)`:
`elapsed()` fails when the timestamp lies in the future, and that failure is
mapped to `false` (stale).  The JSON parse performed by `serde_json::from_str`
is modelled by an explicit `parseCache` function; the cache file on disk is an
`Option String` (`None` = file does not exist).
-/

structure CachedTypes where
  fetched_at : Nat
  types : List String
deriving DecidableEq

def is_fresh (c : CachedTypes) (now ttl : Nat) : Bool :=
  if c.fetched_at ≤ now then now - c.fetched_at ≤ ttl else false

/-- Mirrors `read_cached_types` (`src/main.rs:272-284`): missing file is
`Ok(None)`; an existing file whose contents fail to parse propagates the parse
error with `?` (the `Except.error` branch); a parsed entry yields its list
when fresh and `Ok(None)` when stale. -/
def read_cached_types (file : Option String) (parseCache : String → Option CachedTypes)
    (now ttl : Nat) : Except String (Option (List String)) :=
  match file with
  | none => Except.ok none
  | some contents =>
    match parseCache contents with
    | none => Except.error "cache parse error"
    | some cached =>
      if is_fresh cached now ttl then Except.ok (some cached.types)
      else Except.ok none

/-- Mirrors `load_types` (`src/main.rs:101-110`): unless `no_cache`, read the
cache with `?` (propagating its error); a cached value is returned directly;
otherwise the fresh network fetch (modelled by `fetchResult`, whose `save`
side effect does not change the returned value) is returned. -/
def load_types (no_cache : Bool) (file : Option String)
    (parseCache : String → Option CachedTypes) (now ttl : Nat)
    (fetchResult : Except String (List String)) : Except String (List String) :=
  if no_cache then fetchResult
  else
    match read_cached_types file parseCache now ttl with
    | Except.error e => Except.error e
    | Except.ok (some cached) => Except.ok cached
    | Except.ok none => fetchResult

/-- A parse function that always fails, standing for unparseable cache-file
contents. -/
def failingParse : String → Option CachedTypes := fun _ => none

/-- C2 counterexample: with a cache file that exists but fails to parse, the
claim says the load returns the no-cached-value result and proceeds to the
fresh fetch; in the code `serde_json::from_str(&contents)?` propagates the
parse error, so `read_cached_types` returns `Err` (not `Ok(None)`) and
`load_types` aborts with that error instead of the fetch result. -/
theorem load_types_parse_error_counterexample :
    read_cached_types (some "not json") failingParse 0 0
        = Except.error "cache parse error"
    ∧ read_cached_types (some "not json") failingParse 0 0 ≠ Except.ok none
    ∧ load_types false (some "not json") failingParse 0 0 (Except.ok ["Rust"])
        = Except.error "cache parse error"
    ∧ load_types false (some "not json") failingParse 0 0 (Except.ok ["Rust"])
        ≠ Except.ok ["Rust"] := by
  refine ⟨rfl, ?_, rfl, ?_⟩ <;> intro h <;> cases h

/-- C2 amended: a cache file that exists but fails to parse is a fatal error —
`load_types` propagates the parse error and aborts the run; only a missing
cache file (or a stale entry) is treated as a cache miss that proceeds to a
fresh fetch. -/
theorem load_types_parse_error_fatal :
    (∀ (contents : String) (parseCache : String → Option CachedTypes)
        (now ttl : Nat) (fetchResult : Except String (List String)),
      parseCache contents = none →
      load_types false (some contents) parseCache now ttl fetchResult
        = Except.error "cache parse error")
    ∧ (∀ (parseCache : String → Option CachedTypes) (now ttl : Nat)
        (fetchResult : Except String (List String)),
      load_types false none parseCache now ttl fetchResult = fetchResult) := by
  constructor
  · intro contents parseCache now ttl fetchResult hp
    simp [load_types, read_cached_types, hp]
  · intro parseCache now ttl fetchResult
    rfl

/-- C2 witness: concrete unparseable cache contents make the run abort, and a
missing cache file falls through to the fetch result. -/
theorem load_types_parse_error_fatal_witness :
    load_types false (some "garbage") failingParse 3 7 (Except.ok ["Node"])
        = Except.error "cache parse error"
    ∧ load_types false none failingParse 3 7 (Except.ok ["Node"])
        = Except.ok ["Node"] :=
  ⟨load_types_parse_error_fatal.1 "garbage" failingParse 3 7 (Except.ok ["Node"]) rfl,
   load_types_parse_error_fatal.2 failingParse 3 7 (Except.ok ["Node"])⟩

/-- C6 counterexample: a cache entry timestamped in the future (`fetched_at =
5`, `now = 0`, `ttl = 10`) satisfies the claim's freshness predicate
`now - fetched_at ≤ ttl` both as signed arithmetic (`-5 ≤ 10`) and as
truncated natural subtraction (`0 ≤ 10`), yet the code treats it as stale:
`elapsed()` fails for future timestamps and `unwrap_or(false)` maps that to
not-fresh, so the load returns no cached value. -/
theorem is_fresh_future_counterexample :
    ((0 : Int) - 5 ≤ 10)
    ∧ ((0 : Nat) - 5 ≤ 10)
    ∧ is_fresh ⟨5, ["Rust"]⟩ 0 10 = false
    ∧ read_cached_types (some "cache") (fun _ => some ⟨5, ["Rust"]⟩) 0 10
        = Except.ok none
    ∧ read_cached_types (some "cache") (fun _ => some ⟨5, ["Rust"]⟩) 0 10
        ≠ Except.ok (some ["Rust"]) := by
  refine ⟨by decide, by decide, rfl, rfl, ?_⟩
  intro h
  cases h

/-- C6 amended: for a cache entry that exists and parses, the load returns the
cached list exactly when `fetched_at ≤ now` and `now - fetched_at ≤ ttl`, and
returns no value otherwise — in particular a future-dated entry is stale even
though `now - fetched_at ≤ ttl` under either signed or truncated arithmetic.
An entry timestamped `now` is fresh under a 10-second TTL, and an entry
timestamped at epoch zero is stale under a 1-second TTL for any `now ≥ 2`. -/
theorem is_fresh_spec :
    (∀ (c : CachedTypes) (s : String) (now ttl : Nat),
      read_cached_types (some s) (fun _ => some c) now ttl
        = if c.fetched_at ≤ now ∧ now - c.fetched_at ≤ ttl then
            Except.ok (some c.types)
          else Except.ok none)
    ∧ (∀ now : Nat, is_fresh ⟨now, []⟩ now 10 = true)
    ∧ (∀ now : Nat, 2 ≤ now → is_fresh ⟨0, []⟩ now 1 = false) := by
  refine ⟨?_, ?_, ?_⟩
  · intro c s now ttl
    by_cases h : c.fetched_at ≤ now ∧ now - c.fetched_at ≤ ttl
    · rw [if_pos h]
      simp [read_cached_types, is_fresh, h.1, h.2]
    · rw [if_neg h]
      rcases Decidable.not_and_iff_or_not.mp h with h1 | h2
      · simp [read_cached_types, is_fresh, h1]
      · simp [read_cached_types, is_fresh, h2]
  · intro now
    simp [is_fresh]
  · intro now h
    simp [is_fresh]
    omega

/-- C6 witness: the epoch-zero entry is stale under a 1-second TTL at
`now = 2`. -/
theorem is_fresh_spec_witness : is_fresh ⟨0, []⟩ 2 1 = false :=
  is_fresh_spec.2.2 2 (by decide)

/-!
Template directory client (`fetch_types`, `src/main.rs:112-134`).  The HTTP
layer is stripped: the claims concern the processing of the parsed entry list
returned by a 200 response (a non-200 status aborts before any processing).
`trim_end_matches(".gitignore")` removes *all* trailing occurrences of the
suffix; it is modelled with a fuel argument bounded by the list length, which
more than covers the at-most `length / 10` removal steps.
-/

/-- Mirrors `struct RepoEntry { name: String, ... }` (the `type` field is
ignored by the processing). -/
structure RepoEntry where
  name : String
deriving DecidableEq

/-- The characters of the fixed template-file suffix `".gitignore"`. -/
def gitignoreSuffix : List Char := ".gitignore".data

/-- One-step-per-fuel model of `trim_end_matches(".gitignore")`: while the
list ends with the 10-character suffix, drop those 10 characters. -/
def trimEndAux : Nat → List Char → List Char
  | 0, l => l
  | fuel + 1, l =>
    if gitignoreSuffix <:+ l then trimEndAux fuel (l.take (l.length - 10))
    else l

/-- Mirrors `entry.name.trim_end_matches(".gitignore")`: all trailing copies
of the suffix are removed (fuel `l.length` suffices since each step removes
ten characters). -/
def trimEndGitignore (l : List Char) : List Char :=
  trimEndAux l.length l

/-- The body of the `for` loop of `fetch_types`: keep an entry only if its
name ends with `".gitignore"`; strip the suffix; drop the result if empty. -/
def cleanName (e : RepoEntry) : Option String :=
  if gitignoreSuffix <:+ e.name.data then
    if trimEndGitignore e.name.data = [] then none
    else some (String.mk (trimEndGitignore e.name.data))
  else none

/-- Adjacent-duplicate removal, mirroring `Vec::dedup` (which removes
consecutive repeats; after `sort` all repeats are consecutive). -/
def dedupAdj : List String → List String
  | [] => []
  | [a] => [a]
  | a :: b :: l => if a = b then dedupAdj (b :: l) else a :: dedupAdj (b :: l)

/-- Mirrors the 200-status path of `fetch_types` (`src/main.rs:121-133`):
filter and strip the entry names, `sort`, `dedup`.  Rust sorts `String`s by
byte order, which on UTF-8 coincides with the code-point order used by Lean's
`String` linear order; since equal elements are indistinguishable, any
correct sort produces this exact list. -/
def fetch_types (entries : List RepoEntry) : List String :=
  dedupAdj (List.insertionSort (· ≤ ·) (entries.filterMap cleanName))

theorem mem_dedupAdj : ∀ (l : List String) (s : String), s ∈ dedupAdj l ↔ s ∈ l := by
  intro l
  induction l with
  | nil => intro s; rfl
  | cons a l ih =>
    intro s
    cases l with
    | nil => rfl
    | cons b m =>
      by_cases hab : a = b
      · rw [show dedupAdj (a :: b :: m) = dedupAdj (b :: m) from if_pos hab, ih s]
        subst hab
        simp [List.mem_cons]
      · rw [show dedupAdj (a :: b :: m) = a :: dedupAdj (b :: m) from if_neg hab]
        simp only [List.mem_cons, ih s]

theorem dedupAdj_pairwise_lt :
    ∀ l : List String, l.Pairwise (· ≤ ·) → (dedupAdj l).Pairwise (· < ·) := by
  intro l
  induction l with
  | nil => intro _; exact List.Pairwise.nil
  | cons a l ih =>
    intro h
    cases l with
    | nil => exact List.pairwise_singleton _ _
    | cons b m =>
      by_cases hab : a = b
      · rw [show dedupAdj (a :: b :: m) = dedupAdj (b :: m) from if_pos hab]
        exact ih (List.Pairwise.sublist (List.sublist_cons_self a (b :: m)) h)
      · rw [show dedupAdj (a :: b :: m) = a :: dedupAdj (b :: m) from if_neg hab]
        have htail : (b :: m).Pairwise (· ≤ ·) :=
          List.Pairwise.sublist (List.sublist_cons_self a (b :: m)) h
        refine List.Pairwise.cons ?_ (ih htail)
        intro x hx
        have hxm : x ∈ b :: m := (mem_dedupAdj (b :: m) x).mp hx
        have hax : a ≤ x := (List.pairwise_cons.mp h).1 x hxm
        rcases List.mem_cons.mp hxm with rfl | hxm'
        · exact lt_of_le_of_ne hax hab
        · have hbx : b ≤ x := (List.pairwise_cons.mp htail).1 x hxm'
          have hab' : a ≤ b := (List.pairwise_cons.mp h).1 b (List.mem_cons_self b m)
          rcases eq_or_ne a x with rfl | hne
          · exact absurd (le_antisymm hab' (le_trans hbx hax)) hab
          · exact lt_of_le_of_ne hax hne

theorem cleanName_eq_some (e : RepoEntry) (s : String) :
    cleanName e = some s ↔
      gitignoreSuffix <:+ e.name.data
        ∧ s = String.mk (trimEndGitignore e.name.data) ∧ s ≠ "" := by
  constructor
  · intro h
    by_cases hsuf : gitignoreSuffix <:+ e.name.data
    · refine ⟨hsuf, ?_⟩
      rw [cleanName, if_pos hsuf] at h
      by_cases hnil : trimEndGitignore e.name.data = []
      · rw [if_pos hnil] at h; cases h
      · rw [if_neg hnil] at h
        have hs := (Option.some_inj.mp h).symm
        refine ⟨hs, ?_⟩
        rw [hs, str_ne_empty_iff]
        exact hnil
    · rw [cleanName, if_neg hsuf] at h; cases h
  · rintro ⟨hsuf, hs, hne⟩
    have hnil : trimEndGitignore e.name.data ≠ [] := by
      intro hn
      rw [hs, str_ne_empty_iff] at hne
      exact hne hn
    rw [cleanName, if_pos hsuf, if_neg hnil, hs]

/-- Modelled from the spec: claim C7 reads "with that suffix stripped", i.e. a
single removal of the trailing 10-character `".gitignore"` suffix.  Used only
to compare the claim's wording with the code's repeated stripping. -/
def stripSuffixOnce (l : List Char) : List Char := l.take (l.length - 10)

/-- C7 counterexample: for the entry `"a.gitignore.gitignore"`, stripping the
suffix once (as the claim states) gives `"a.gitignore"`, but the code's
`trim_end_matches` removes all trailing copies, so the returned list is
`["a"]` and does not contain `"a.gitignore"`. -/
theorem fetch_types_strip_counterexample :
    fetch_types [⟨"a.gitignore.gitignore"⟩] = ["a"]
    ∧ String.mk (stripSuffixOnce ("a.gitignore.gitignore".data)) = "a.gitignore"
    ∧ ("a.gitignore" : String) ∉ fetch_types [⟨"a.gitignore.gitignore"⟩] := by
  refine ⟨by decide, by decide, by decide⟩

/-- C7 amended: the result of processing a listing contains exactly the names
of entries whose name ends with `".gitignore"`, with **all trailing copies**
of that suffix stripped and empty resulting names dropped, and the returned
sequence is sorted ascending and contains no duplicates. -/
theorem fetch_types_spec (entries : List RepoEntry) :
    (∀ s : String, s ∈ fetch_types entries ↔
      ∃ e ∈ entries, gitignoreSuffix <:+ e.name.data
        ∧ s = String.mk (trimEndGitignore e.name.data) ∧ s ≠ "")
    ∧ (fetch_types entries).Sorted (· ≤ ·)
    ∧ (fetch_types entries).Nodup := by
  refine ⟨?_, ?_, ?_⟩
  · intro s
    simp only [fetch_types]
    rw [mem_dedupAdj, List.mem_insertionSort, List.mem_filterMap]
    constructor
    · rintro ⟨e, he, hc⟩
      exact ⟨e, he, (cleanName_eq_some e s).mp hc⟩
    · rintro ⟨e, he, hc⟩
      exact ⟨e, he, (cleanName_eq_some e s).mpr hc⟩
  · exact (dedupAdj_pairwise_lt _
      (List.sorted_insertionSort (· ≤ ·) (entries.filterMap cleanName))).imp le_of_lt
  · exact (dedupAdj_pairwise_lt _
      (List.sorted_insertionSort (· ≤ ·) (entries.filterMap cleanName))).imp ne_of_lt

/-!
Name normalization (`normalize_type`, `src/main.rs:253-262`).  Rust's
`first.to_uppercase()` is the full Unicode mapping; the model uses Lean's
`Char.toUpper`, which agrees with it on ASCII — every name in the upstream
collection and in the claims.
-/

/-- Mirrors `input.starts_with("--")`. -/
def isFlagStart (s : String) : Bool :=
  match s.data with
  | '-' :: '-' :: _ => true
  | _ => false

/-- Mirrors `normalize_type`: flag-prefixed input is returned unchanged;
otherwise the first character is upper-cased and the remainder kept as-is;
the empty string is returned unchanged. -/
def normalize_type (input : String) : String :=
  if isFlagStart input then input
  else
    match input.data with
    | [] => input
    | first :: rest => String.mk (first.toUpper :: rest)

/-- C8: normalization returns strings starting with the two-character flag
marker `"--"` unchanged; otherwise it upper-cases the first character and
keeps the remainder as-is; concretely `normalize("rust") = "Rust"`,
`normalize("Rust") = "Rust"` and `normalize("--macos") = "--macos"`. -/
theorem normalize_type_spec :
    (∀ s : String, isFlagStart s = true → normalize_type s = s)
    ∧ (∀ (c : Char) (rest : List Char),
        isFlagStart (String.mk (c :: rest)) = false →
        normalize_type (String.mk (c :: rest)) = String.mk (c.toUpper :: rest))
    ∧ normalize_type "rust" = "Rust"
    ∧ normalize_type "Rust" = "Rust"
    ∧ normalize_type "--macos" = "--macos" := by
  refine ⟨?_, ?_, by decide, by decide, by decide⟩
  · intro s h
    have hdef : normalize_type s
        = if isFlagStart s then s
          else
            match s.data with
            | [] => s
            | first :: rest => String.mk (first.toUpper :: rest) := rfl
    rw [hdef, h]
    rfl
  · intro c rest h
    have hdef : normalize_type (String.mk (c :: rest))
        = if isFlagStart (String.mk (c :: rest)) then String.mk (c :: rest)
          else String.mk (c.toUpper :: rest) := rfl
    rw [hdef, h]
    rfl

/-- C8 witness: the flag case and the upper-casing case at concrete inputs. -/
theorem normalize_type_spec_witness :
    normalize_type "--macos" = "--macos"
    ∧ normalize_type (String.mk ('r' :: ['u', 's', 't']))
        = String.mk ('r'.toUpper :: ['u', 's', 't']) :=
  ⟨normalize_type_spec.1 "--macos" (by decide),
   normalize_type_spec.2.1 'r' ['u', 's', 't'] (by decide)⟩

/-!
Template fetch client (`fetch_templates` and `built_in_flag`,
`src/main.rs:161-188`, `264-270`).  The network is a function from a template
name to the response of `GET <raw-base>/<name>.gitignore`; built-in flags
never consult it.  A non-200 status produces an error naming the template and
the status code, ending the run (no later name is attempted, no earlier
template is returned).
-/

structure HttpResponse where
  status : Nat
  body : String
deriving DecidableEq

inductive FetchError where
  | notFound (name : String) (status : Nat)
deriving DecidableEq

/-- Mirrors `built_in_flag` (`src/main.rs:264-270`): a `match` on the two
literal flag names. -/
def built_in_flag (flag : String) : Option String :=
  if flag = "--macos" then some "# Desktop Service Store Mac\n.DS_Store\n"
  else if flag = "--locks" then some "# Lock Files\npackage-lock.json\nyarn.lock\n"
  else none

/-- Mirrors `fetch_templates` (`src/main.rs:161-188`): names are processed in
order; a built-in flag yields its canned content with no network call;
otherwise the raw-content URL is fetched and a non-200 status aborts with an
error naming the template and status. -/
def fetch_templates (net : String → HttpResponse) :
    List String → Except FetchError (List Template)
  | [] => Except.ok []
  | t :: rest =>
    match built_in_flag t with
    | some snippet =>
      match fetch_templates net rest with
      | Except.ok out => Except.ok (⟨t, snippet⟩ :: out)
      | Except.error e => Except.error e
    | none =>
      if (net t).status ≠ 200 then
        Except.error (FetchError.notFound t (net t).status)
      else
        match fetch_templates net rest with
        | Except.ok out => Except.ok (⟨t, (net t).body⟩ :: out)
        | Except.error e => Except.error e

/-- C9: `"--macos"` and `"--locks"` yield their fixed built-in content
independently of the network (any other string has no built-in content), and
on the first name that is not built-in and whose response status is not 200,
the fetch fails with an error naming that template and status — regardless of
the remaining names, and without returning templates for earlier names. -/
theorem fetch_templates_spec :
    built_in_flag "--macos" = some "# Desktop Service Store Mac\n.DS_Store\n"
    ∧ built_in_flag "--locks" = some "# Lock Files\npackage-lock.json\nyarn.lock\n"
    ∧ (∀ s : String, s ≠ "--macos" → s ≠ "--locks" → built_in_flag s = none)
    ∧ (∀ (net : String → HttpResponse) (t c : String),
        built_in_flag t = some c →
        fetch_templates net [t] = Except.ok [⟨t, c⟩])
    ∧ (∀ (net : String → HttpResponse) (pre : List String) (t : String)
        (rest : List String),
        (∀ p ∈ pre, built_in_flag p ≠ none ∨ (net p).status = 200) →
        built_in_flag t = none → (net t).status ≠ 200 →
        fetch_templates net (pre ++ t :: rest)
          = Except.error (FetchError.notFound t (net t).status)) := by
  refine ⟨rfl, rfl, ?_, ?_, ?_⟩
  · intro s h1 h2
    simp [built_in_flag, h1, h2]
  · intro net t c h
    simp [fetch_templates, h]
  · intro net pre t rest
    induction pre with
    | nil =>
      intro _ hbt hst
      simp [fetch_templates, hbt, hst]
    | cons p pre ih =>
      intro hpre hbt hst
      have ih' := ih (fun q hq => hpre q (List.mem_cons_of_mem _ hq)) hbt hst
      rcases hq : built_in_flag p with _ | s
      · have h200 : (net p).status = 200 := by
          rcases hpre p (List.mem_cons_self p pre) with hbf | h2
          · exact absurd hq hbf
          · exact h2
        simp [fetch_templates, hq, h200, ih']
      · simp [fetch_templates, hq, ih']

/-- A network in which every request fails with status 404. -/
def badNet : String → HttpResponse := fun _ => ⟨404, ""⟩

/-- C9 witness: a built-in name succeeds before a failing one, the failing
name `"X"` aborts the fetch naming it with status 404 regardless of the
remaining name `"Y"`, and a solitary built-in flag fetch succeeds without the
network cooperating. -/
theorem fetch_templates_spec_witness :
    fetch_templates badNet ["--macos", "X", "Y"]
      = Except.error (FetchError.notFound "X" 404)
    ∧ fetch_templates badNet ["--locks"]
      = Except.ok [⟨"--locks", "# Lock Files\npackage-lock.json\nyarn.lock\n"⟩] :=
  ⟨fetch_templates_spec.2.2.2.2 badNet ["--macos"] "X" ["Y"]
      (by decide) (by decide) (by decide),
   fetch_templates_spec.2.2.2.1 badNet "--locks"
      "# Lock Files\npackage-lock.json\nyarn.lock\n" rfl⟩
